import Mathlib

/-!
Verification of the command/undo core of `cola/cmds.py`.

The repository state (`cola.model()`) is embedded as an explicit record
`RepoState`; each command class becomes a record capturing the `old_*` /
`new_*` snapshots its Python constructor stores, and its `do`/`undo`
methods become pure state-passing functions.  External collaborators
(the filesystem, the git subprocess, configuration, the UI prompt hook)
are passed in as parameters, and every broadcast on the notifier as well
as every delegated model operation is recorded in an ordered `Event`
trace, so that ordering claims about broadcasts can be stated.
-/

set_option maxRecDepth 8000

/-- The view-mode enumeration of the model (`mode_none`, `mode_amend`,
`mode_worktree`, `mode_index`, `mode_untracked`). -/
inductive Mode where
  | none
  | amend
  | worktree
  | index
  | untracked
  deriving DecidableEq, Repr

/-- The mutable fields of the main model that the commands in
`cola/cmds.py` read and write. -/
structure RepoState where
  diff_text : String
  filename : String
  mode : Mode
  head : String
  commitmsg : String
  directory : String
  deriving DecidableEq, Repr

/-- One entry of the ordered trace of notifier broadcasts, prompt-hook
calls and delegated model operations performed by a command's `do`. -/
inductive Event where
  | log_cmd (status : Int) (text : String)
  | amend_sig (entering : Bool)
  | info_prompt (title : String) (message : String)
  | critical_prompt (title : String) (message : String)
  | question_prompt (title : String) (message : String)
  | tool_prompt (cmd : String)
  | console_run (argv : List String)
  | silent_run (argv : List String)
  | stage_paths_op (paths : List String)
  | unstage_paths_op (paths : List String)
  | unstage_all_op
  | untrack_paths_op (paths : List String)
  | update_file_status_op
  | update_status_op
  | git_am (patch : String)
  deriving DecidableEq, Repr

/-- The `Command` base class: the four-field `old_*` snapshot taken from
the model at construction time and the parallel `new_*` set that starts
out equal to it. -/
structure Command where
  old_diff_text : String
  old_filename : String
  old_mode : Mode
  old_head : String
  new_diff_text : String
  new_filename : String
  new_head : String
  new_mode : Mode
  deriving DecidableEq, Repr

/-- `Command.__init__`: stash the model's four diff-affecting fields and
initialize the `new_*` fields to the same values. -/
def Command.init (model : RepoState) : Command :=
  { old_diff_text := model.diff_text
    old_filename := model.filename
    old_mode := model.mode
    old_head := model.head
    new_diff_text := model.diff_text
    new_filename := model.filename
    new_head := model.head
    new_mode := model.mode }

/-- `Command.do`: write the `new_*` snapshot into the model. -/
def Command.do_ (c : Command) (m : RepoState) : RepoState :=
  { m with filename := c.new_filename, head := c.new_head,
           mode := c.new_mode, diff_text := c.new_diff_text }

/-- `Command.undo`: write the `old_*` snapshot back into the model. -/
def Command.undo (c : Command) (m : RepoState) : RepoState :=
  { m with diff_text := c.old_diff_text, filename := c.old_filename,
           head := c.old_head, mode := c.old_mode }

/-- The data of an `AmendMode` command instance. -/
structure AmendModeCmd where
  base : Command
  undoable : Bool
  skip : Bool
  amending : Bool
  old_commitmsg : String
  new_commitmsg : String
  deriving DecidableEq, Repr

/-- What `AmendMode.__init__`'s stack walk reads off an undo-stack entry:
whether the entry is an `AmendMode` instance and, if so, its `amending`
flag and stored `old_commitmsg`. -/
inductive StackEntry where
  | amendModeEntry (amending : Bool) (old_commitmsg : String)
  | otherEntry
  deriving DecidableEq, Repr

/-- The index loop of `AmendMode.__init__`: for `i` in `xrange(n)` look at
`undostack[n - i - 1]`, skip entries that are not `AmendMode`, skip
`AmendMode` entries that were not amending, and stop at the first
amending one, returning its `old_commitmsg`.  `searchAmendStack stack i`
scans indices `i-1, i-2, ..., 0`. -/
def searchAmendStack (stack : List StackEntry) : Nat → Option String
  | 0 => Option.none
  | i + 1 =>
    match stack[i]? with
    | some (StackEntry.amendModeEntry true old) => some old
    | some (StackEntry.amendModeEntry false _) => searchAmendStack stack i
    | some StackEntry.otherEntry => searchAmendStack stack i
    | Option.none => searchAmendStack stack i

/-- `AmendMode.__init__(amend)`.  `prev_commitmsg` stands for
`self.model.prev_commitmsg()` and `undostack` for `_factory.undostack`
(only the fields the constructor reads are modelled per entry). -/
def AmendMode.init (amend : Bool) (model : RepoState) (prev_commitmsg : String)
    (undostack : List StackEntry) : AmendModeCmd :=
  let base := Command.init model
  if amend then
    { base := { base with new_mode := Mode.amend, new_head := "HEAD^" }
      undoable := true
      skip := false
      amending := true
      old_commitmsg := model.commitmsg
      new_commitmsg := prev_commitmsg }
  else
    { base := { base with new_mode := Mode.none, new_head := "HEAD",
                          new_diff_text := "" }
      undoable := true
      skip := false
      amending := false
      old_commitmsg := model.commitmsg
      new_commitmsg :=
        match searchAmendStack undostack undostack.length with
        | some m => m
        | Option.none => model.commitmsg }

/-- `AmendMode.do`: refuse (and flag `skip`) when entering amend mode
while `MERGE_HEAD` exists; otherwise broadcast the amend signal, set the
commit message, run `Command.do` and update the file status. -/
def AmendMode.do_ (c : AmendModeCmd) (merge_head_exists : Bool) (s : RepoState) :
    AmendModeCmd × RepoState × List Event :=
  if c.amending && merge_head_exists then
    ({ c with skip := true }, s,
      [Event.amend_sig false,
       Event.info_prompt "Oops! Unmerged"
         "You are in the middle of a merge.\nYou cannot amend while merging."])
  else
    ({ c with skip := false },
     Command.do_ c.base { s with commitmsg := c.new_commitmsg },
     [Event.amend_sig c.amending, Event.update_file_status_op])

/-- `AmendMode.undo`: a no-op when the command was flagged `skip`;
otherwise restore the commit message and the four-field snapshot and
update the file status. -/
def AmendMode.undo (c : AmendModeCmd) (s : RepoState) : RepoState × List Event :=
  if c.skip then (s, [])
  else
    (Command.undo c.base { s with commitmsg := c.old_commitmsg },
     [Event.update_file_status_op])

/-- The two strings carried by `errors.UsageError`. -/
structure UsageError where
  title : String
  message : String
  deriving DecidableEq, Repr

/-- The data of a `LoadCommitMessage` command instance. -/
structure LoadCommitMessageCmd where
  base : Command
  undoable : Bool
  path : String
  old_commitmsg : String
  old_directory : String
  deriving DecidableEq, Repr

/-- `LoadCommitMessage.__init__(path)`. -/
def LoadCommitMessage.init (path : String) (model : RepoState) : LoadCommitMessageCmd :=
  { base := Command.init model
    undoable := true
    path := path
    old_commitmsg := model.commitmsg
    old_directory := model.directory }

/-- `LoadCommitMessage.do`: raise `UsageError` (leaving the model
untouched) when the path is falsy or not a readable file, else set the
directory to the path's dirname and the commit message to the file's
content.  `fs` maps a path to its content when `os.path.isfile` holds and
`utils.slurp` succeeds; `dirname` stands for `os.path.dirname`. -/
def LoadCommitMessage.do_ (c : LoadCommitMessageCmd) (fs : String → Option String)
    (dirname : String → String) (s : RepoState) : RepoState × Option UsageError :=
  if c.path = "" then
    (s, some { title := "Error: cannot find commit template"
               message := c.path ++ ": No such file or directory." })
  else
    match fs c.path with
    | Option.none =>
      (s, some { title := "Error: cannot find commit template"
                 message := c.path ++ ": No such file or directory." })
    | some content =>
      ({ s with directory := dirname c.path, commitmsg := content }, Option.none)

/-- `LoadCommitMessage.undo`: restore the commit message and directory. -/
def LoadCommitMessage.undo (c : LoadCommitMessageCmd) (s : RepoState) : RepoState :=
  { s with commitmsg := c.old_commitmsg, directory := c.old_directory }

/-- The data of a `LoadPreviousMessage` command instance. -/
structure LoadPreviousMessageCmd where
  base : Command
  undoable : Bool
  sha1 : String
  old_commitmsg : String
  new_commitmsg : String
  deriving DecidableEq, Repr

/-- `LoadPreviousMessage.__init__(sha1)`; `prev_commitmsg` stands for
`self.model.prev_commitmsg(sha1)`. -/
def LoadPreviousMessage.init (sha1 : String) (prev_commitmsg : String)
    (model : RepoState) : LoadPreviousMessageCmd :=
  { base := Command.init model
    undoable := true
    sha1 := sha1
    old_commitmsg := model.commitmsg
    new_commitmsg := prev_commitmsg }

/-- `LoadPreviousMessage.do`: set the commit message to the stored one. -/
def LoadPreviousMessage.do_ (c : LoadPreviousMessageCmd) (s : RepoState) : RepoState :=
  { s with commitmsg := c.new_commitmsg }

/-- `LoadPreviousMessage.undo`: restore the old commit message. -/
def LoadPreviousMessage.undo (c : LoadPreviousMessageCmd) (s : RepoState) : RepoState :=
  { s with commitmsg := c.old_commitmsg }

/-- The data of a `SetDiffText` command instance. -/
structure SetDiffTextCmd where
  base : Command
  undoable : Bool
  deriving DecidableEq, Repr

/-- `SetDiffText.__init__(text)`. -/
def SetDiffText.init (text : String) (model : RepoState) : SetDiffTextCmd :=
  { base := { Command.init model with new_diff_text := text }, undoable := true }

/-- `SetDiffText` inherits `Command.do`. -/
def SetDiffText.do_ (c : SetDiffTextCmd) (s : RepoState) : RepoState :=
  Command.do_ c.base s

/-- `SetDiffText` inherits `Command.undo`. -/
def SetDiffText.undo (c : SetDiffTextCmd) (s : RepoState) : RepoState :=
  Command.undo c.base s

/-- Python's substring test `needle in hay`. -/
def strContains (hay needle : String) : Prop := needle.data <:+: hay.data

instance (hay needle : String) : Decidable (strContains hay needle) :=
  inferInstanceAs (Decidable (needle.data <:+: hay.data))

/-- The data of a `SignOff` command instance. -/
structure SignOffCmd where
  base : Command
  undoable : Bool
  old_commitmsg : String
  deriving DecidableEq, Repr

/-- `SignOff.__init__`. -/
def SignOff.init (model : RepoState) : SignOffCmd :=
  { base := Command.init model, undoable := true, old_commitmsg := model.commitmsg }

/-- `SignOff.signoff()`: the generated sign-off line (the configured
user name and email are passed in; they come from `_config`/`pwd`). -/
def SignOff.signoff (name email : String) : String :=
  "\nSigned-off-by: " ++ name ++ " <" ++ email ++ ">"

/-- `SignOff.do`: append `'\n' + signoff` to the commit message unless
the sign-off string already occurs in it. -/
def SignOff.do_ (sgn : String) (s : RepoState) : RepoState :=
  if strContains s.commitmsg sgn then s
  else { s with commitmsg := s.commitmsg ++ "\n" ++ sgn }

/-- `SignOff.undo`: restore the old commit message. -/
def SignOff.undo (c : SignOffCmd) (s : RepoState) : RepoState :=
  { s with commitmsg := c.old_commitmsg }

/-- The data of a `ResetMode` command instance. -/
structure ResetModeCmd where
  base : Command
  deriving DecidableEq, Repr

/-- `ResetMode.__init__`: new mode `mode_none`, new head `HEAD`, empty
new diff text. -/
def ResetMode.init (model : RepoState) : ResetModeCmd :=
  { base := { Command.init model with new_mode := Mode.none, new_head := "HEAD",
                                      new_diff_text := "" } }

/-- `ResetMode.do`: `Command.do` followed by a file-status update. -/
def ResetMode.do_ (c : ResetModeCmd) (s : RepoState) : RepoState × List Event :=
  (Command.do_ c.base s, [Event.update_file_status_op])

/-- The data of a `Commit` command instance (extends `ResetMode`). -/
structure CommitCmd where
  base : Command
  amend : Bool
  msg : String
  old_commitmsg : String
  new_commitmsg : String
  deriving DecidableEq, Repr

/-- `Commit.__init__(amend, msg)`. -/
def Commit.init (amend : Bool) (msg : String) (model : RepoState) : CommitCmd :=
  { base := (ResetMode.init model).base
    amend := amend
    msg := msg
    old_commitmsg := model.commitmsg
    new_commitmsg := "" }

/-- `Commit.do`: run the commit subprocess (its `(status, output)` result
is the `commit_result` parameter, standing for
`self.model.commit_with_msg(...)`); on zero status run `ResetMode.do`
and clear the commit message with success title `'Commit: '`; on nonzero
status mutate nothing and use title `'Commit failed: '`.  Exactly one
`log_cmd` is broadcast either way. -/
def Commit.do_ (c : CommitCmd) (commit_result : Int × String) (s : RepoState) :
    RepoState × List Event :=
  let status := commit_result.1
  let output := commit_result.2
  if status = 0 then
    let r := ResetMode.do_ { base := c.base } s
    ({ r.1 with commitmsg := c.new_commitmsg },
     r.2 ++ [Event.log_cmd status ("Commit: " ++ output)])
  else
    (s, [Event.log_cmd status ("Commit failed: " ++ output)])

/-- Recognizer for `log_cmd` events in a trace. -/
def Event.isLogCmd : Event → Bool
  | Event.log_cmd _ _ => true
  | _ => false

/-- Python's `sep.join(items)`. -/
def pyJoin (sep : String) : List String → String
  | [] => ""
  | [a] => a
  | a :: rest => a ++ sep ++ pyJoin sep rest

/-- `Stage.do`: broadcast the `'Staging: ...'` log message, then call
`self.model.stage_paths(paths)`. -/
def Stage.do_ (paths : List String) : List Event :=
  [Event.log_cmd 0 ("Staging: " ++ pyJoin ", " paths),
   Event.stage_paths_op paths]

/-- `Unstage.do`: broadcast the `'Unstaging: ...'` log message, then call
`self.model.unstage_paths(paths)`. -/
def Unstage.do_ (paths : List String) : List Event :=
  [Event.log_cmd 0 ("Unstaging: " ++ pyJoin ", " paths),
   Event.unstage_paths_op paths]

/-- `UnstageAll.do`: calls `self.model.unstage_all()` and nothing else —
in particular it broadcasts no `log_cmd`. -/
def UnstageAll.do_ : List Event := [Event.unstage_all_op]

/-- `Untrack.do`: broadcast the `'Untracking: ...'` log message, call
`self.model.untrack_paths(paths)` (whose `(status, out)` result is the
`untrack_result` parameter), then broadcast that result. -/
def Untrack.do_ (paths : List String) (untrack_result : Int × String) : List Event :=
  [Event.log_cmd 0 ("Untracking: " ++ pyJoin ", " paths),
   Event.untrack_paths_op paths,
   Event.log_cmd untrack_result.1 untrack_result.2]

/-- The text built by `UntrackedSummary.__init__` from
`self.model.untracked`: a count header with `'s'` exactly when the count
exceeds one, then (for a nonempty list) a rule header and the writes
`'/' + u` for each untracked path `u` — with no separator between
them, since the source's `io.write('/'+core.encode(u))` appends no
newline. -/
def UntrackedSummary.text (untracked : List String) : String :=
  let suffix := if untracked.length > 1 then "s" else ""
  let header := "# " ++ toString untracked.length ++ " untracked file" ++ suffix ++ "\n"
  if untracked.isEmpty then header
  else
    header ++ "# possible .gitignore rule" ++ suffix ++ ":\n" ++
      String.join (untracked.map (fun u => "/" ++ u))

/-- The data of an `UntrackedSummary` command instance. -/
structure UntrackedSummaryCmd where
  base : Command
  deriving DecidableEq, Repr

/-- `UntrackedSummary.__init__` (`untracked` stands for
`self.model.untracked`). -/
def UntrackedSummary.init (untracked : List String) (model : RepoState) :
    UntrackedSummaryCmd :=
  { base := { Command.init model with
      new_diff_text := UntrackedSummary.text untracked
      new_mode := Mode.untracked } }

/-- The data of a `ShowUntracked` command instance. -/
structure ShowUntrackedCmd where
  base : Command
  deriving DecidableEq, Repr

/-- `ShowUntracked.__init__(filenames)`: set the untracked mode and try
`utils.slurp(filenames[0])`, falling back to `''` on any failure — the
bare `except` catches both the IndexError of `filenames[0]` on an empty
list and any read error from `slurp`.  `fs` maps a path to its content
exactly when the read succeeds. -/
def ShowUntracked.init (filenames : List String) (fs : String → Option String)
    (model : RepoState) : ShowUntrackedCmd :=
  { base := { Command.init model with
      new_mode := Mode.untracked
      new_diff_text :=
        match filenames with
        | [] => ""
        | f :: _ =>
          match fs f with
          | some content => content
          | Option.none => "" } }

/-- Byte/code-point lexicographic comparison of character lists, the
order Python's `list.sort()` uses on the path strings of
`ApplyPatches`. -/
def charListLe : List Char → List Char → Bool
  | [], _ => true
  | _ :: _, [] => false
  | a :: as, b :: bs =>
    if a.toNat < b.toNat then true
    else if b.toNat < a.toNat then false
    else charListLe as bs

/-- The string order used by `patches.sort()`. -/
def pyStrLe (a b : String) : Prop := charListLe a.data b.data = true

instance : DecidableRel pyStrLe := fun a b =>
  inferInstanceAs (Decidable (charListLe a.data b.data = true))

/-- The data of an `ApplyPatches` command instance.  `__init__` sorts the
supplied patch paths in place (`patches.sort()`, a stable ascending sort)
before storing them. -/
structure ApplyPatchesCmd where
  base : Command
  patches : List String
  deriving DecidableEq, Repr

/-- `ApplyPatches.__init__(patches)`. -/
def ApplyPatches.init (patches : List String) (model : RepoState) : ApplyPatchesCmd :=
  { base := Command.init model, patches := List.insertionSort pyStrLe patches }

/-- The `for idx, patch in enumerate(self.patches)` loop of
`ApplyPatches.do`: apply each patch via `git am` (result supplied by
`am_result`), log it, and when more than one patch is queued append a
per-patch diffstat segment (`parent_stat idx` stands for
`self.model.git.diff('HEAD^!', stat=True)` after the `idx`-th apply;
`basename` stands for `os.path.basename`). -/
def ApplyPatches.loop (num_patches : Nat) (am_result : String → Int × String)
    (parent_stat : Nat → String) (basename : String → String) :
    Nat → List String → String × List Event
  | _, [] => ("", [])
  | idx, p :: rest =>
    let status := (am_result p).1
    let output := (am_result p).2
    let seg :=
      if num_patches > 1 then
        "Patch " ++ toString (idx + 1) ++ "/" ++ toString num_patches ++ " - " ++
          basename p ++ ":\n" ++ parent_stat idx ++ "\n\n"
      else ""
    let r := ApplyPatches.loop num_patches am_result parent_stat basename (idx + 1) rest
    (seg ++ r.1, Event.git_am p :: Event.log_cmd status output :: r.2)

/-- `ApplyPatches.do`: run the loop over the stored (sorted) patches,
append the overall diffstat against the pre-loop head (`summary_stat`
stands for `self.model.git.diff(orig_head, stat=True)`), store the
result as the diff text, rescan, and show the summary prompt. -/
def ApplyPatches.do_ (c : ApplyPatchesCmd) (am_result : String → Int × String)
    (parent_stat : Nat → String) (summary_stat : String)
    (basename : String → String) (s : RepoState) : RepoState × List Event :=
  let r := ApplyPatches.loop c.patches.length am_result parent_stat basename 0 c.patches
  ({ s with diff_text := r.1 ++ "Summary:\n" ++ summary_stat },
   r.2 ++ [Event.update_file_status_op,
     Event.info_prompt "Patch(es) Applied"
       (toString c.patches.length ++ " patch(es) applied:\n\n" ++
        pyJoin "\n" (c.patches.map basename))])

/-- The sequence of `git am` invocations recorded in a trace, in order. -/
def amSequence (evs : List Event) : List String :=
  evs.filterMap (fun e => match e with
    | Event.git_am p => some p
    | _ => Option.none)

/-- Python's `str.rstrip()`: drop trailing whitespace. -/
def strRstrip (s : String) : String :=
  String.mk (s.data.reverse.dropWhile Char.isWhitespace).reverse

/-- The `'prompt'` entry of a guitool options dict: absent, the boolean
`True`, or a string — `RunConfigAction.do` replaces the first two with
the default prompt text. -/
inductive PromptOpt where
  | absent
  | boolTrue
  | strval (s : String)
  deriving DecidableEq, Repr

/-- The guitool options read by `RunConfigAction.do`
(`_config.get_guitool_opts(name)`). -/
structure GuitoolOpts where
  cmd : String
  title : Option String
  prompt : PromptOpt
  needsfile : Bool
  revprompt : Bool
  argprompt : Bool
  confirm : Bool
  noconsole : Bool
  norescan : Bool
  deriving DecidableEq, Repr

/-- One answer of the blocking `run_config_action` dialog: whether the
user accepted, and the revision/args it stored into the options dict
(`Option.none` stands for a falsy value, i.e. absent or empty). -/
structure RcaAnswer where
  ok : Bool
  revision : Option String
  args : Option String
  deriving DecidableEq, Repr

/-- The three well-known environment variables `RunConfigAction`
manipulates; `Option.none` means the variable is unset. -/
structure EnvVars where
  FILENAME : Option String
  REVISION : Option String
  ARGS : Option String
  deriving DecidableEq, Repr

/-- The `while True` revision/args prompt loop of `RunConfigAction.do`:
each iteration shows the blocking dialog (one entry of `answers`); a
falsy answer cancels; an empty revision under `revprompt` shows a
critical prompt and repeats; otherwise the collected `(rev, args)` pair
is returned.  Running out of modelled answers counts as cancelling. -/
def rcaPromptLoop (cmd : String) (revprompt : Bool) :
    List RcaAnswer → Option (Option String × Option String) × List Event
  | [] => (Option.none, [])
  | a :: rest =>
    if !a.ok then (Option.none, [Event.tool_prompt cmd])
    else if revprompt && a.revision.isNone then
      let r := rcaPromptLoop cmd revprompt rest
      (r.1, Event.tool_prompt cmd ::
            Event.critical_prompt "Invalid Revision"
              "The revision expression cannot be empty." :: r.2)
    else (some (a.revision, a.args), [Event.tool_prompt cmd])

/-- The tail of `RunConfigAction.do` once the prompts have been passed:
set `REVISION`/`ARGS` when collected, log the about-to-run command, run
it through the shell (silently under `noconsole`, else via the blocking
console prompt), log stdout/status/stderr, and rescan unless
`norescan`. -/
def rcaRunShell (opts : GuitoolOpts) (rev args : Option String)
    (silent_result console_result : Int × String × String)
    (expandvars : String → String) (env : EnvVars) (preEvents : List Event) :
    EnvVars × List Event × Option Int :=
  let env := match rev with
             | some r => { env with REVISION := some r }
             | Option.none => env
  let env := match args with
             | some a => { env with ARGS := some a }
             | Option.none => env
  let title := expandvars opts.cmd
  let argv := ["sh", "-c", opts.cmd]
  let run := if opts.noconsole then (silent_result, Event.silent_run argv)
             else (console_result, Event.console_run argv)
  let status := run.1.1
  let out := run.1.2.1
  let err := run.1.2.2
  (env,
   preEvents ++
     [Event.log_cmd 0 ("running: " ++ title), run.2,
      Event.log_cmd status
        ("stdout: " ++ strRstrip out ++ "\nstatus: " ++ toString status ++
         "\nstderr: " ++ strRstrip err)] ++
     (if opts.norescan then [] else [Event.update_status_op]),
   some status)

/-- `RunConfigAction.do`: delete `FILENAME`/`REVISION`/`ARGS` from the
environment, normalize the title/prompt options, run the `needsfile`
guard, then the revprompt/argprompt loop or the confirm prompt, and
finally the shell step.  `sel_filename` stands for
`selection.filename()` (`Option.none` for a falsy value); the subprocess
results and `os.path.expandvars` are parameters.  Returns the final
environment, the event trace, and the returned status (`Option.none`
when the command aborts before running the shell). -/
def RunConfigAction.do_ (opts : GuitoolOpts) (sel_filename : Option String)
    (answers : List RcaAnswer) (question_answer : Bool)
    (silent_result console_result : Int × String × String)
    (expandvars : String → String) (_env0 : EnvVars) :
    EnvVars × List Event × Option Int :=
  let envCleared : EnvVars :=
    { FILENAME := Option.none, REVISION := Option.none, ARGS := Option.none }
  let cmd := opts.cmd
  let title0 := (opts.title).getD cmd
  let prompt0 :=
    match opts.prompt with
    | PromptOpt.strval s => s
    | _ => "Are you sure you want to run " ++ cmd ++ "?"
  if opts.needsfile && sel_filename.isNone then
    (envCleared,
     [Event.info_prompt "Please select a file"
        ("\"" ++ cmd ++ "\" requires a selected file")],
     Option.none)
  else
    let env1 := if opts.needsfile then { envCleared with FILENAME := sel_filename }
                else envCleared
    if opts.revprompt || opts.argprompt then
      let lr := rcaPromptLoop cmd opts.revprompt answers
      match lr.1 with
      | Option.none => (env1, lr.2, Option.none)
      | some (rev, args) =>
        rcaRunShell opts rev args silent_result console_result expandvars env1 lr.2
    else if opts.confirm then
      if question_answer then
        rcaRunShell opts Option.none Option.none silent_result console_result
          expandvars env1
          [Event.question_prompt (expandvars title0) (expandvars prompt0)]
      else
        (env1,
         [Event.question_prompt (expandvars title0) (expandvars prompt0)],
         Option.none)
    else
      rcaRunShell opts Option.none Option.none silent_result console_result
        expandvars env1 []

/-- Recognizer for shell-execution events in a trace. -/
def Event.isShellRun : Event → Bool
  | Event.console_run _ => true
  | Event.silent_run _ => true
  | _ => false

/-- The predicate of the spec's stack walk: an undo-stack entry that is
an `AmendMode` command which entered amend mode. -/
def isEnteringAmend : StackEntry → Bool
  | StackEntry.amendModeEntry true _ => true
  | _ => false

/-- The pre-entry commit message stored on an `AmendMode` stack entry. -/
def entryOldMsg : StackEntry → String
  | StackEntry.amendModeEntry _ old => old
  | StackEntry.otherEntry => ""

/-- Modelled from the spec: walk the undo stack from most recent to
oldest and take the pre-entry message of the first amend-entering
`AmendMode` command; fall back to the live commit message. -/
def specRecoveredMsg (undostack : List StackEntry) (live : String) : String :=
  match undostack.reverse.find? isEnteringAmend with
  | some e => entryOldMsg e
  | Option.none => live

theorem searchAmendStack_append (l : List StackEntry) (x : StackEntry) :
    ∀ i, i ≤ l.length → searchAmendStack (l ++ [x]) i = searchAmendStack l i := by
  intro i
  induction i with
  | zero => intro _; rfl
  | succ i ih =>
    intro h
    have hi : i < l.length := h
    have hget : (l ++ [x])[i]? = l[i]? := by
      rw [List.getElem?_append]
      simp [hi]
    simp only [searchAmendStack, hget]
    rcases hl : l[i]? with _ | e
    · exact ih (Nat.le_of_lt hi)
    · rcases e with ⟨b, old⟩ | _
      · cases b
        · exact ih (Nat.le_of_lt hi)
        · rfl
      · exact ih (Nat.le_of_lt hi)

theorem searchAmendStack_eq_find (stack : List StackEntry) :
    searchAmendStack stack stack.length =
      Option.map entryOldMsg (stack.reverse.find? isEnteringAmend) := by
  induction stack using List.reverseRecOn with
  | nil => rfl
  | append_singleton l x ih =>
    have hlen : (l ++ [x]).length = l.length + 1 := by simp
    rw [hlen]
    simp only [searchAmendStack, List.getElem?_concat_length]
    rcases x with ⟨b, old⟩ | _
    · cases b
      · rw [searchAmendStack_append l _ _ (Nat.le_refl _), ih]
        simp [isEnteringAmend]
      · simp [isEnteringAmend, entryOldMsg]
    · rw [searchAmendStack_append l _ _ (Nat.le_refl _), ih]
      simp [isEnteringAmend]

/-- C1: for every undoable command (`AmendMode`, `LoadCommitMessage`,
`LoadPreviousMessage`, `SetDiffText`, `SignOff`), running `undo()`
immediately after `do()` restores the model — `diff_text`, `filename`,
`mode`, `head`, and the command-specific fields `commitmsg` and
`directory` — to its exact pre-`do()` value, under every environment
(merge marker present or not, file readable or not). -/
theorem C1_undoable_commands_restore_state :
    (∀ (s : RepoState) (amend mh : Bool) (prev : String) (stack : List StackEntry),
      (AmendMode.undo (AmendMode.do_ (AmendMode.init amend s prev stack) mh s).1
        (AmendMode.do_ (AmendMode.init amend s prev stack) mh s).2.1).1 = s) ∧
    (∀ (s : RepoState) (path : String) (fs : String → Option String)
        (dirname : String → String),
      LoadCommitMessage.undo (LoadCommitMessage.init path s)
        (LoadCommitMessage.do_ (LoadCommitMessage.init path s) fs dirname s).1 = s) ∧
    (∀ (s : RepoState) (sha1 prev : String),
      LoadPreviousMessage.undo (LoadPreviousMessage.init sha1 prev s)
        (LoadPreviousMessage.do_ (LoadPreviousMessage.init sha1 prev s) s) = s) ∧
    (∀ (s : RepoState) (text : String),
      SetDiffText.undo (SetDiffText.init text s)
        (SetDiffText.do_ (SetDiffText.init text s) s) = s) ∧
    (∀ (s : RepoState) (sgn : String),
      SignOff.undo (SignOff.init s) (SignOff.do_ sgn s) = s) := by
  refine ⟨?_, ?_, ?_, ?_, ?_⟩
  · intro s amend mh prev stack
    cases amend <;> cases mh <;>
      simp [AmendMode.init, AmendMode.do_, AmendMode.undo,
            Command.init, Command.do_, Command.undo]
  · intro s path fs dirname
    by_cases hp : path = "" <;>
      rcases hf : fs path with _ | content <;>
      simp [LoadCommitMessage.init, LoadCommitMessage.do_, LoadCommitMessage.undo,
            hp, hf]
  · intro s sha1 prev
    simp [LoadPreviousMessage.init, LoadPreviousMessage.do_, LoadPreviousMessage.undo]
  · intro s text
    simp [SetDiffText.init, SetDiffText.do_, SetDiffText.undo,
          Command.init, Command.do_, Command.undo]
  · intro s sgn
    by_cases h : strContains s.commitmsg sgn <;>
      simp [SignOff.init, SignOff.do_, SignOff.undo, h]

/-- C3: when an amend-entering `AmendMode` command runs `do()` while the
`MERGE_HEAD` merge marker exists, the model (in particular `mode`,
`head`, `diff_text` and `commitmsg`) is left unchanged, the command is
flagged `skip`, and `undo()` on the resulting command is a no-op from
any state — so repeated `undo()` calls also change nothing. -/
theorem C3_amend_merge_guard (s s' : RepoState) (prev : String)
    (stack : List StackEntry) :
    (AmendMode.do_ (AmendMode.init true s prev stack) true s).2.1 = s ∧
    (AmendMode.do_ (AmendMode.init true s prev stack) true s).1.skip = true ∧
    AmendMode.undo (AmendMode.do_ (AmendMode.init true s prev stack) true s).1 s' =
      (s', []) := by
  refine ⟨?_, ?_, ?_⟩ <;> simp [AmendMode.init, AmendMode.do_, AmendMode.undo]

/-- C4: the commit message recovered by a leave-amend `AmendMode`
constructor equals the result of walking the undo stack from most recent
to oldest, stopping at the first amend-entering `AmendMode` entry and
taking its pre-entry message, with the live model message as fallback. -/
theorem C4_leave_amend_message_recovery (model : RepoState) (prev : String)
    (stack : List StackEntry) :
    (AmendMode.init false model prev stack).new_commitmsg =
      specRecoveredMsg stack model.commitmsg := by
  simp only [AmendMode.init, specRecoveredMsg, searchAmendStack_eq_find]
  cases stack.reverse.find? isEnteringAmend <;> rfl

/-- C2: `Commit.do` resets `mode`/`head`/`diff_text` to the clean state
and clears the commit message exactly when the commit subprocess exits
with status zero, leaving every `RepoState` field untouched on a nonzero
status; in both cases exactly one `log_cmd` is broadcast, titled
`'Commit: '` on success and `'Commit failed: '` on failure. -/
theorem C2_commit_state_only_on_success (s : RepoState) (amend : Bool)
    (msg output : String) (status : Int) :
    (Commit.do_ (Commit.init amend msg s) (status, output) s).1 =
      (if status = 0 then
        { s with mode := Mode.none, head := "HEAD", diff_text := "", commitmsg := "" }
       else s) ∧
    (Commit.do_ (Commit.init amend msg s) (status, output) s).2.filter Event.isLogCmd =
      [Event.log_cmd status
        ((if status = 0 then "Commit: " else "Commit failed: ") ++ output)] := by
  by_cases h : status = 0 <;>
    simp [Commit.init, Commit.do_, ResetMode.init, ResetMode.do_, Command.init,
          Command.do_, Event.isLogCmd, h, List.filter]

theorem pyJoin_mem_part {p : String} {paths : List String} (hp : p ∈ paths) :
    p.data <:+: (pyJoin ", " paths).data := by
  induction paths with
  | nil => cases hp
  | cons a rest ih =>
    rcases rest with _ | ⟨b, bs⟩
    · rcases List.mem_singleton.mp hp with rfl
      exact List.infix_rfl
    · rcases List.mem_cons.mp hp with rfl | hmem
      · refine List.IsPrefix.isInfix ?_
        simp only [pyJoin, String.data_append]
        rw [List.append_assoc]
        exact List.prefix_append _ _
      · have h1 : p.data <:+: (pyJoin ", " (b :: bs)).data := ih hmem
        have h2 : (pyJoin ", " (b :: bs)).data <:+:
            (pyJoin ", " (a :: b :: bs)).data := by
          simp only [pyJoin, String.data_append]
          exact (List.suffix_append _ _).isInfix
        exact h1.trans h2

theorem strContains_append_pyJoin {p : String} {paths : List String} (pre : String)
    (hp : p ∈ paths) : strContains (pre ++ pyJoin ", " paths) p := by
  unfold strContains
  rw [String.data_append]
  exact (pyJoin_mem_part hp).trans (List.suffix_append _ _).isInfix

/-- C5 counterexample: `UnstageAll.do()` performs the unstage-all model
operation with no `log_cmd` broadcast at all, so it does not broadcast a
log message before (or after) the mutation. -/
theorem C5_counterexample_unstage_all_has_no_log :
    UnstageAll.do_ = [Event.unstage_all_op] ∧
    UnstageAll.do_.filter Event.isLogCmd = [] := by
  exact ⟨rfl, rfl⟩

/-- C5 (amended): `Stage(paths).do()`, `Unstage(paths).do()` and
`Untrack(paths).do()` each broadcast a single human-readable `log_cmd`
event whose text contains every affected path, strictly before invoking
the corresponding model path-mutation operation; `UnstageAll.do()`
however invokes `unstage_all` without broadcasting any `log_cmd`. -/
theorem C5_stage_family_log_before_mutation :
    (∀ paths : List String,
      Stage.do_ paths =
        [Event.log_cmd 0 ("Staging: " ++ pyJoin ", " paths),
         Event.stage_paths_op paths] ∧
      ∀ p ∈ paths, strContains ("Staging: " ++ pyJoin ", " paths) p) ∧
    (∀ paths : List String,
      Unstage.do_ paths =
        [Event.log_cmd 0 ("Unstaging: " ++ pyJoin ", " paths),
         Event.unstage_paths_op paths] ∧
      ∀ p ∈ paths, strContains ("Unstaging: " ++ pyJoin ", " paths) p) ∧
    (∀ (paths : List String) (res : Int × String),
      Untrack.do_ paths res =
        [Event.log_cmd 0 ("Untracking: " ++ pyJoin ", " paths),
         Event.untrack_paths_op paths,
         Event.log_cmd res.1 res.2] ∧
      ∀ p ∈ paths, strContains ("Untracking: " ++ pyJoin ", " paths) p) ∧
    UnstageAll.do_ = [Event.unstage_all_op] := by
  refine ⟨?_, ?_, ?_, rfl⟩
  · exact fun paths => ⟨rfl, fun p hp => strContains_append_pyJoin _ hp⟩
  · exact fun paths => ⟨rfl, fun p hp => strContains_append_pyJoin _ hp⟩
  · exact fun paths res => ⟨rfl, fun p hp => strContains_append_pyJoin _ hp⟩

/-- Witness for the amended C5 property at paths `["a.txt", "b.txt"]`:
the `log_cmd` text of `Stage.do` names `b.txt`. -/
theorem C5_stage_family_log_before_mutation_witness :
    Stage.do_ ["a.txt", "b.txt"] =
      [Event.log_cmd 0 ("Staging: " ++ pyJoin ", " ["a.txt", "b.txt"]),
       Event.stage_paths_op ["a.txt", "b.txt"]] ∧
    strContains ("Staging: " ++ pyJoin ", " ["a.txt", "b.txt"]) "b.txt" :=
  ⟨(C5_stage_family_log_before_mutation.1 ["a.txt", "b.txt"]).1,
   (C5_stage_family_log_before_mutation.1 ["a.txt", "b.txt"]).2 "b.txt" (by simp)⟩

/-- Concrete guitool options (a tool with `needsfile` set and no other
flags) used for the C6 counterexample and witness. -/
def rcaNeedsFileOpts : GuitoolOpts :=
  { cmd := "mytool"
    title := Option.none
    prompt := PromptOpt.absent
    needsfile := true
    revprompt := false
    argprompt := false
    confirm := false
    noconsole := false
    norescan := false }

/-- C6 counterexample: with `FILENAME` initially set to `x.py`, a
`needsfile` tool run with no selection does NOT leave the environment
variables at their initial values — `RunConfigAction.do` deletes all
three of `FILENAME`/`REVISION`/`ARGS` before the `needsfile` guard, so
the final environment differs from the initial one. -/
theorem C6_counterexample_env_not_preserved :
    (RunConfigAction.do_ rcaNeedsFileOpts Option.none [] true (0, "", "") (0, "", "")
        id { FILENAME := some "x.py", REVISION := Option.none, ARGS := Option.none }).1
      ≠ { FILENAME := some "x.py", REVISION := Option.none, ARGS := Option.none } := by
  decide

/-- C6 (amended): when the tool has `needsfile` set and no file is
selected, `RunConfigAction.do` returns without executing the shell
command (no shell-run event, status `Option.none`), broadcasting only
the informational prompt; the three environment variables are all unset
afterwards — cleared at entry, not restored to their initial values. -/
theorem C6_needsfile_without_selection_aborts (opts : GuitoolOpts)
    (answers : List RcaAnswer) (qa : Bool) (sr cr : Int × String × String)
    (ev : String → String) (env0 : EnvVars)
    (hn : opts.needsfile = true) :
    RunConfigAction.do_ opts Option.none answers qa sr cr ev env0 =
      ({ FILENAME := Option.none, REVISION := Option.none, ARGS := Option.none },
       [Event.info_prompt "Please select a file"
          ("\"" ++ opts.cmd ++ "\" requires a selected file")],
       Option.none) ∧
    (RunConfigAction.do_ opts Option.none answers qa sr cr ev env0).2.1.filter
        Event.isShellRun = [] := by
  constructor
  · simp [RunConfigAction.do_, hn]
  · simp [RunConfigAction.do_, hn, Event.isShellRun, List.filter]

/-- Witness for C6 (amended) at the concrete `needsfile` tool. -/
theorem C6_needsfile_without_selection_aborts_witness :
    RunConfigAction.do_ rcaNeedsFileOpts Option.none [] true (0, "", "") (0, "", "")
        id { FILENAME := some "x.py", REVISION := Option.none, ARGS := Option.none } =
      ({ FILENAME := Option.none, REVISION := Option.none, ARGS := Option.none },
       [Event.info_prompt "Please select a file"
          ("\"" ++ rcaNeedsFileOpts.cmd ++ "\" requires a selected file")],
       Option.none) :=
  (C6_needsfile_without_selection_aborts rcaNeedsFileOpts [] true (0, "", "")
    (0, "", "") id { FILENAME := some "x.py", REVISION := Option.none,
                     ARGS := Option.none } rfl).1

theorem charListLe_cons_iff (a b : Char) (as bs : List Char) :
    charListLe (a :: as) (b :: bs) = true ↔
      a.toNat < b.toNat ∨ (a.toNat = b.toNat ∧ charListLe as bs = true) := by
  rcases Nat.lt_trichotomy a.toNat b.toNat with h | h | h
  · simp [charListLe, h]
  · have h1 : ¬ a.toNat < b.toNat := by omega
    have h2 : ¬ b.toNat < a.toNat := by omega
    simp [charListLe, h1, h2, h]
  · have h1 : ¬ a.toNat < b.toNat := by omega
    have h2 : a.toNat ≠ b.toNat := by omega
    simp [charListLe, h1, h, h2]

theorem charListLe_total : ∀ x y : List Char,
    charListLe x y = true ∨ charListLe y x = true
  | [], _ => Or.inl rfl
  | _ :: _, [] => Or.inr rfl
  | a :: as, b :: bs => by
    rcases Nat.lt_trichotomy a.toNat b.toNat with h | h | h
    · exact Or.inl ((charListLe_cons_iff a b as bs).mpr (Or.inl h))
    · rcases charListLe_total as bs with ih | ih
      · exact Or.inl ((charListLe_cons_iff a b as bs).mpr (Or.inr ⟨h, ih⟩))
      · exact Or.inr ((charListLe_cons_iff b a bs as).mpr (Or.inr ⟨h.symm, ih⟩))
    · exact Or.inr ((charListLe_cons_iff b a bs as).mpr (Or.inl h))

theorem charListLe_trans : ∀ x y z : List Char,
    charListLe x y = true → charListLe y z = true → charListLe x z = true
  | [], _, _, _, _ => rfl
  | _ :: _, [], _, h1, _ => by simp [charListLe] at h1
  | _ :: _, _ :: _, [], _, h2 => by simp [charListLe] at h2
  | a :: as, b :: bs, c :: cs, h1, h2 => by
    rw [charListLe_cons_iff] at h1 h2 ⊢
    rcases h1 with h1 | ⟨h1e, h1r⟩ <;> rcases h2 with h2 | ⟨h2e, h2r⟩
    · exact Or.inl (by omega)
    · exact Or.inl (by omega)
    · exact Or.inl (by omega)
    · exact Or.inr ⟨by omega, charListLe_trans as bs cs h1r h2r⟩

instance : IsTotal String pyStrLe := ⟨fun a b => charListLe_total a.data b.data⟩

instance : IsTrans String pyStrLe := ⟨fun a b c => charListLe_trans a.data b.data c.data⟩

theorem amSequence_loop (num : Nat) (am_result : String → Int × String)
    (parent_stat : Nat → String) (basename : String → String) :
    ∀ (idx : Nat) (l : List String),
      amSequence (ApplyPatches.loop num am_result parent_stat basename idx l).2 = l := by
  intro idx l
  induction l generalizing idx with
  | nil => rfl
  | cons p rest ih =>
    simp only [ApplyPatches.loop, amSequence, List.filterMap_cons]
    simpa [amSequence] using ih (idx + 1)

theorem amSequence_do (c : ApplyPatchesCmd) (am_result : String → Int × String)
    (parent_stat : Nat → String) (summary_stat : String)
    (basename : String → String) (s : RepoState) :
    amSequence (ApplyPatches.do_ c am_result parent_stat summary_stat basename s).2 =
      c.patches := by
  have h := amSequence_loop c.patches.length am_result parent_stat basename 0 c.patches
  simp only [amSequence] at h
  simp [ApplyPatches.do_, amSequence, List.filterMap_append, h]

/-- C7: the `git am` invocations of `ApplyPatches.do` follow the stored
patch list, which `__init__` sorted: the applied sequence is sorted
under the byte-lexicographic path order and is a permutation of the
input, whatever order the patches were supplied in; in particular
`['/tmp/0002.patch', '/tmp/0001.patch']` is applied as `0001` then
`0002`. -/
theorem C7_apply_patches_sorted_order (patches : List String) (model : RepoState)
    (am_result : String → Int × String) (parent_stat : Nat → String)
    (summary_stat : String) (basename : String → String) (s : RepoState) :
    amSequence (ApplyPatches.do_ (ApplyPatches.init patches model) am_result
        parent_stat summary_stat basename s).2 =
      List.insertionSort pyStrLe patches ∧
    (List.insertionSort pyStrLe patches).Perm patches ∧
    List.Sorted pyStrLe (List.insertionSort pyStrLe patches) ∧
    List.insertionSort pyStrLe ["/tmp/0002.patch", "/tmp/0001.patch"] =
      ["/tmp/0001.patch", "/tmp/0002.patch"] := by
  refine ⟨?_, List.perm_insertionSort _ _, List.sorted_insertionSort _ _, by decide⟩
  rw [amSequence_do]
  rfl

/-- C8: evaluation of the `UntrackedSummary` diff text.  The singular
and plural count headers match the claim, but the suggested ignore rules
are written with no separator: for two untracked files the text ends in
the single line `/a.txt/b.txt` rather than one `/`-prefixed rule line
per path. -/
theorem C8_untracked_summary_text_evaluation :
    UntrackedSummary.text [] = "# 0 untracked file\n" ∧
    UntrackedSummary.text ["a.txt"] =
      "# 1 untracked file\n# possible .gitignore rule:\n/a.txt" ∧
    UntrackedSummary.text ["a.txt", "b.txt"] =
      "# 2 untracked files\n# possible .gitignore rules:\n/a.txt/b.txt" := by
  refine ⟨?_, ?_, ?_⟩ <;> decide

/-- C9: constructing `ShowUntracked` is total for every input: the mode
is always set to the untracked mode, the diff text is the file content
when the first listed file reads successfully, and the empty string when
the list is empty or the read fails. -/
theorem C9_show_untracked_total (filenames : List String)
    (fs : String → Option String) (model : RepoState) :
    (ShowUntracked.init filenames fs model).base.new_mode = Mode.untracked ∧
    (∀ f rest content, filenames = f :: rest → fs f = some content →
      (ShowUntracked.init filenames fs model).base.new_diff_text = content) ∧
    (∀ f rest, filenames = f :: rest → fs f = Option.none →
      (ShowUntracked.init filenames fs model).base.new_diff_text = "") ∧
    (filenames = [] →
      (ShowUntracked.init filenames fs model).base.new_diff_text = "") := by
  refine ⟨rfl, ?_, ?_, ?_⟩
  · rintro f rest content rfl hf
    simp [ShowUntracked.init, hf]
  · rintro f rest rfl hf
    simp [ShowUntracked.init, hf]
  · rintro rfl
    rfl

/-- Witness for C9 at a readable file, an unreadable file and the empty
list. -/
theorem C9_show_untracked_total_witness :
    ((ShowUntracked.init ["u.txt"]
        (fun p => if p = "u.txt" then some "hello" else Option.none)
        { diff_text := "", filename := "", mode := Mode.none, head := "HEAD",
          commitmsg := "", directory := "" }).base.new_diff_text = "hello") ∧
    ((ShowUntracked.init ["v.txt"] (fun _ => Option.none)
        { diff_text := "", filename := "", mode := Mode.none, head := "HEAD",
          commitmsg := "", directory := "" }).base.new_diff_text = "") ∧
    ((ShowUntracked.init [] (fun _ => some "x")
        { diff_text := "", filename := "", mode := Mode.none, head := "HEAD",
          commitmsg := "", directory := "" }).base.new_diff_text = "") :=
  ⟨(C9_show_untracked_total ["u.txt"] _ _).2.1 "u.txt" [] "hello" rfl (by decide),
   (C9_show_untracked_total ["v.txt"] _ _).2.2.1 "v.txt" [] rfl rfl,
   (C9_show_untracked_total [] _ _).2.2.2 rfl⟩

/-- C10: `SignOff.do` is idempotent on the commit message: running it
twice with the generated sign-off line yields the same state as running
it once, because after the first run the sign-off is contained in the
message and the guard makes the second run a no-op. -/
theorem C10_signoff_idempotent (name email : String) (s : RepoState) :
    SignOff.do_ (SignOff.signoff name email)
        (SignOff.do_ (SignOff.signoff name email) s) =
      SignOff.do_ (SignOff.signoff name email) s := by
  by_cases h : strContains s.commitmsg (SignOff.signoff name email)
  · simp [SignOff.do_, h]
  · have h2 : strContains (s.commitmsg ++ "\n" ++ SignOff.signoff name email)
        (SignOff.signoff name email) := by
      unfold strContains
      have hsuf : (SignOff.signoff name email).data <:+
          ((s.commitmsg ++ "\n") ++ SignOff.signoff name email).data := by
        rw [String.data_append]
        exact List.suffix_append _ _
      exact hsuf.isInfix
    simp [SignOff.do_, h, h2]
